import Mathlib

/-!
Verification development for the `ollama-discord-bot` repository
(`src/gamification.py` and `src/ollama_discord_bot.py`).

The Python code is shallowly embedded:

* `gamification.py` — `get_xp_for_level`, `check_badge_unlock` and the
  level-up loop of `add_xp` become Lean functions over `Nat` / `List String`
  (Python integers are unbounded, so `Nat` is exact for the non-negative
  quantities involved).
* `ollama_discord_bot.py` — the response post-processing
  (`strip`, the multiline role-label regex substitution, the two-period
  truncation), the streaming-line aggregation loop of `try_ollama_request`,
  and the regular-message path of `on_message` (history update, persona
  resolution, request payload, response handling) become Lean functions.
  Network transport and JSON decoding are external collaborators
  (the `requests` library and `json.loads`), so their *outcomes* are the
  model's inputs: an `InferResult` says how the HTTP exchange went, and a
  `StreamLine` is one line of the stream already classified the way the
  Python loop classifies it (blank / malformed / decoded record).
-/

/-! ## Progression ledger (`src/gamification.py`) -/

/-- `get_xp_for_level` (gamification.py lines 51-56): linear for levels 1-5,
quadratic for 6 and above. -/
def get_xp_for_level (level : Nat) : Nat :=
  if level ≤ 5 then 100 * level else 100 * level ^ 2

/-- The `badge_milestones` table of `check_badge_unlock`
(gamification.py lines 72-79).  The source strings carry emoji suffixes;
they are elided here (only identity and order of badges matter below). -/
def badge_milestones (level : Nat) : Option String :=
  if level = 2 then some "Congrats, You Did Something"
  else if level = 5 then some "Tryhard in Training"
  else if level = 10 then some "Still Here? Wow."
  else if level = 20 then some "Professional Procrastinator"
  else if level = 30 then some "Overachiever Alert"
  else if level = 50 then some "Touch Grass, Maybe?"
  else none

/-- `check_badge_unlock(level, user)` (gamification.py lines 70-82): the
milestone badge for `level`, unless already owned. -/
def check_badge_unlock (level : Nat) (badges : List String) : Option String :=
  match badge_milestones level with
  | some b => if b ∈ badges then none else some b
  | none => none

/-- In-memory per-user record `{"xp": _, "level": _, "badges": _}`
(gamification.py line 25; `last_message` is a wall-clock timestamp and is
not modelled). -/
structure UserProgress where
  xp : Nat
  level : Nat
  badges : List String
deriving DecidableEq

/-- The `while user["xp"] >= next_level_xp` loop of `add_xp`
(gamification.py lines 39-47), with an explicit fuel argument for
structural recursion.  Each iteration needs
`xp ≥ get_xp_for_level (level+1) ≥ level + 1`, and `level` grows by one
per iteration, so `xp + 1` fuel always suffices and the fuel-exhausted
branch is unreachable at the call site below.
Returns (final level, final badge list, newly unlocked badges). -/
def add_xp_loop : Nat → Nat → Nat → List String → List String →
    Nat × List String × List String
  | 0, _, level, badges, newBadges => (level, badges, newBadges)
  | fuel + 1, xp, level, badges, newBadges =>
    if get_xp_for_level (level + 1) ≤ xp then
      match check_badge_unlock (level + 1) badges with
      | some b => add_xp_loop fuel xp (level + 1) (badges ++ [b]) (newBadges ++ [b])
      | none => add_xp_loop fuel xp (level + 1) badges newBadges
    else (level, badges, newBadges)

/-- `add_xp(user_id, amount)` (gamification.py lines 31-49), restricted to
the pure state transition on one user's record (the `save_data` write-through
and `last_message` timestamp are I/O).  Returns
`(leveled_up, updated user, new_badges)` mirroring the Python return value
`(leveled_up, user["level"], user["xp"], new_badges)`. -/
def add_xp (u : UserProgress) (amount : Nat) : Bool × UserProgress × List String :=
  let xp2 := u.xp + amount
  let r := add_xp_loop (xp2 + 1) xp2 u.level u.badges []
  (r.1 != u.level, ⟨xp2, r.1, r.2.1⟩, r.2.2)

/-! ## Response post-processor
(`try_ollama_request` lines 552-554 and `on_message` lines 427-433) -/

/-- Python `str.strip()` / regex `\s` whitespace on ASCII text. -/
def isPySpace (c : Char) : Bool :=
  c == ' ' || c == '\t' || c == '\n' || c == '\r' || c == '\x0b' || c == '\x0c'

/-- Python `s.strip()`: drop leading and trailing whitespace. -/
def pyStrip (s : String) : String :=
  String.mk (((s.toList.dropWhile isPySpace).reverse.dropWhile isPySpace).reverse)

/-- Greedy `\s*` consumption after a matched label, tracking whether the
last consumed character was a newline (that determines whether the regex
anchor `^` can match at the resume position, cf. `re.MULTILINE`). -/
def dropWsTrack : List Char → Bool → List Char × Bool
  | [], b => ([], b)
  | c :: rest, b =>
    if isPySpace c then dropWsTrack rest (c == '\n') else (c :: rest, b)

/-- Scanner for `re.sub(r'^(User|Assistant):\s*', '', s, flags=re.MULTILINE)`
(ollama_discord_bot.py line 553).  `atStart` holds exactly when the current
position is the string start or is preceded by `'\n'`, i.e. where `^` can
match under `re.MULTILINE`; the alternation tries `User` before `Assistant`
like the regex.  The scan advances at least one character per step, so
fuel equal to the list length suffices and the fuel-exhausted branch is
unreachable from `stripRoleLabels`. -/
def stripLabelsAux : Nat → List Char → Bool → List Char
  | 0, cs, _ => cs
  | _ + 1, [], _ => []
  | fuel + 1, c :: rest, atStart =>
    if atStart && "User:".toList.isPrefixOf (c :: rest) then
      let p := dropWsTrack ((c :: rest).drop 5) false
      stripLabelsAux fuel p.1 p.2
    else if atStart && "Assistant:".toList.isPrefixOf (c :: rest) then
      let p := dropWsTrack ((c :: rest).drop 10) false
      stripLabelsAux fuel p.1 p.2
    else
      c :: stripLabelsAux fuel rest (c == '\n')

/-- The role-echo stripping regex substitution of line 553. -/
def stripRoleLabels (s : String) : String :=
  String.mk (stripLabelsAux s.toList.length s.toList true)

/-- `s.find('.', i)` restricted to the suffix `l = s[i:]`: index (absolute,
given that `l` starts at position `i`) of the first `'.'`, or `none`. -/
def findDotFrom : List Char → Nat → Option Nat
  | [], _ => none
  | c :: rest, i => if c == '.' then some i else findDotFrom rest (i + 1)

/-- The two-period truncation of `on_message` lines 427-433:
`s[:second_period_index + 1]` when both `find` calls succeed, otherwise
the input unchanged. -/
def truncateTwoSentences (s : String) : String :=
  match findDotFrom s.toList 0 with
  | none => s
  | some i1 =>
    match findDotFrom (s.toList.drop (i1 + 1)) (i1 + 1) with
    | none => s
    | some i2 => String.mk (s.toList.take (i2 + 1))

/-- The cleaning applied inside `try_ollama_request` (lines 552-554):
strip, remove role-echo labels, strip again. -/
def cleanReply (full : String) : String :=
  pyStrip (stripRoleLabels (pyStrip full))

/-- The full post-processing pipeline a raw aggregated reply goes through
before display: the cleaning of `try_ollama_request` followed by the
two-period truncation of `on_message`. -/
def cleanAll (raw : String) : String :=
  truncateTwoSentences (cleanReply raw)

/-! ## Inference client stream aggregation
(`try_ollama_request`, ollama_discord_bot.py lines 462-571) -/

/-- What the Python loop observes about one successfully `json.loads`-decoded
stream record (lines 524-536): `response` is `some v` when the flat
`"response"` key is present with string value `v`; `message` is `some mc`
when the `"message"` key is present and holds a dict, with `mc` the optional
string under its `"content"` key; `done` is the truthiness of
`json_data.get("done", False)`. -/
structure JsonRecord where
  response : Option String
  message : Option (Option String)
  done : Bool
deriving DecidableEq

/-- One line delivered by `response.iter_lines()`, classified the way the
loop body classifies it: `empty` is a falsy line (skipped by `if line:`),
`blank` is a line whose decoded text is whitespace-only, `"data: "`, or
`":"` (line 508), `malformed` is a line whose decode or JSON parse raises
(lines 520-522, 540-542), and `record r` is a decoded record (after the
optional `"data: "` framing strip of lines 512-515). -/
inductive StreamLine where
  | empty
  | blank
  | malformed
  | record (r : JsonRecord)
deriving DecidableEq

/-- Token extraction from one record (lines 524-528): the flat `response`
field wins, else the nested `message.content` field, else no text. -/
def recordToken (r : JsonRecord) : String :=
  match r.response with
  | some v => v
  | none =>
    match r.message with
    | some mc => mc.getD ""
    | none => ""

/-- The aggregation loop over stream lines (lines 499-544): skip
empty/blank/malformed lines, append each nonempty token to `full` and set
`received`, and stop immediately when a record carries `done`.
Returns the final `(full_reply, received_data)` pair. -/
def aggregate : List StreamLine → String → Bool → String × Bool
  | [], full, received => (full, received)
  | StreamLine.empty :: rest, full, received => aggregate rest full received
  | StreamLine.blank :: rest, full, received => aggregate rest full received
  | StreamLine.malformed :: rest, full, received => aggregate rest full received
  | StreamLine.record r :: rest, full, received =>
    let tok := recordToken r
    let received2 := if tok ≠ "" then true else received
    let full2 := if tok ≠ "" then full ++ tok else full
    if r.done then (full2, received2) else aggregate rest full2 received2

/-- How the HTTP exchange of `try_ollama_request` went, as seen at the
`requests.post` boundary: a non-200 status (line 490), a timeout
(line 563), a transport failure (line 566), or a 200 response whose body
is the given sequence of stream lines. -/
inductive InferResult where
  | httpError
  | timeout
  | connectionError
  | streamLines (lines : List StreamLine)
deriving DecidableEq

/-- `try_ollama_request` (lines 462-571) as a function of the exchange
outcome: every failure path returns `(false, none)` mirroring the Python
`return False, None`; a completed stream with at least one token and a
nonempty cleaned reply returns `(true, some cleaned)` mirroring
`return True, clean_reply`. -/
def try_ollama_request : InferResult → Bool × Option String
  | InferResult.httpError => (false, none)
  | InferResult.timeout => (false, none)
  | InferResult.connectionError => (false, none)
  | InferResult.streamLines ls =>
    if (aggregate ls "" false).2 = false then (false, none)
    else if cleanReply (aggregate ls "" false).1 = "" then (false, none)
    else (true, some (cleanReply (aggregate ls "" false).1))

/-- Concatenation, in arrival order, of the tokens of the record lines of a
line list (specification-side description of what `aggregate` collects). -/
def tokensOf : List StreamLine → String
  | [] => ""
  | StreamLine.record r :: rest => recordToken r ++ tokensOf rest
  | _ :: rest => tokensOf rest

/-- Whether a line is a record carrying the `done` flag. -/
def lineDone : StreamLine → Bool
  | StreamLine.record r => r.done
  | _ => false

/-! ## Session store and orchestrator
(`on_message` regular-message path, ollama_discord_bot.py lines 345-460) -/

inductive Role where
  | system
  | user
  | assistant
deriving DecidableEq

/-- One entry of `conversation_history[user_id]` or of the request payload:
a `{"role": _, "content": _}` dict. -/
structure Turn where
  role : Role
  content : String
deriving DecidableEq

/-- The inline trim pattern
`if len(h) > k: h = h[-k:]` (lines 352-353 with `k = MAX_CONTEXT_LENGTH`,
lines 423-424 with `k = MAX_CONTEXT_LENGTH * 2`).  Python `h[-0:]` is the
whole list, hence the `k = 0` case. -/
def trimTo (k : Nat) (l : List Turn) : List Turn :=
  if k < l.length then (if k = 0 then l else l.drop (l.length - k)) else l

/-- One append-then-trim step on a history, the operation the two code
sites perform per appended turn. -/
def appendTurn (k : Nat) (h : List Turn) (t : Turn) : List Turn :=
  trimTo k (h ++ [t])

/-- Lines 348-354: append the incoming user turn to the (possibly fresh)
history and trim to `MAX_CONTEXT_LENGTH`. -/
def updatedHistory (maxCtx : Nat) (history : List Turn) (prompt : String) : List Turn :=
  trimTo maxCtx (history ++ [Turn.mk Role.user prompt])

/-- `BOT_ROLES.get(name)` restricted to the system prompt: the roles table
is an association list `name -> system_prompt` (the loader at lines 57-73
only stores roles that do have a `system_prompt`). -/
def lookupRole (roles : List (String × String)) (name : String) : Option String :=
  match roles with
  | [] => none
  | (n, p) :: rest => if n = name then some p else lookupRole rest name

/-- Lines 367-377: `selected = prefs.get('current_role', default)`, look it
up, and on a miss fall back to the default role name and its table entry.
Returns `(selected_role_name, role's system prompt if found)`; note the
stored preference itself is not touched by this code. -/
def resolveRole (roles : List (String × String)) (defaultRole : String)
    (pref : Option String) : String × Option String :=
  match lookupRole roles (pref.getD defaultRole) with
  | some p => (pref.getD defaultRole, some p)
  | none => (defaultRole, lookupRole roles defaultRole)

/-- The per-user mutable state the regular-message path reads and writes:
`conversation_history.get(user_id, [])` and
`user_preferences.get(user_id, {}).get('current_role')`. -/
structure HandleState where
  history : List Turn
  pref : Option String
deriving DecidableEq

/-- The single outbound reaction of the regular-message path: the delivered
reply text (line 440-444; chunking of texts over 2000 characters is
presentation), the generic failure apology (line 450), the dedicated
empty-response apology (line 454), the unexpected-error apology (line 459),
or the no-roles-configured error (line 363). -/
inductive Outbound where
  | delivered (text : String)
  | failureGeneric
  | emptyResponse
  | unexpected
  | criticalNoRoles
deriving DecidableEq

/-- Lines 391-404: the `messages_payload` sent to `/api/chat` — the system
turn, then the latest user text (line 398), then the just-updated history
(line 401; the update of lines 348-354 ran before payload construction, and
the updated history is always nonempty so the `extend` always happens). -/
def messagesPayload (maxCtx : Nat) (sys : String) (history : List Turn)
    (prompt : String) : List Turn :=
  Turn.mk Role.system sys :: Turn.mk Role.user prompt ::
    updatedHistory maxCtx history prompt

/-- The regular-message path of `on_message` (lines 345-460), entered after
the bot/channel/command guards, as a state transition plus outbound
classification.  `defaultRole` is `CURRENT_DEFAULT_ROLE` (`none` models the
line 362 no-roles branch); `infer` is the outcome of the HTTP exchange.
On `(true, some c)` with nonempty `c` (`if success and ai_response`,
line 412) the user turn and assistant turn are appended to the already
updated history (lines 417-420), trimmed to twice the window (lines
423-424), and the two-period-truncated text is delivered; a false success
flag yields the generic apology (line 450); a missing role-table entry for
the default role models the `AttributeError` that line 380 would raise,
landing in the `except` branch of line 457. -/
def handleMessage (maxCtx : Nat) (roles : List (String × String))
    (defaultRole : Option String) (st : HandleState) (prompt : String)
    (infer : InferResult) : HandleState × Outbound :=
  let h1 := updatedHistory maxCtx st.history prompt
  match defaultRole with
  | none => (⟨h1, st.pref⟩, Outbound.criticalNoRoles)
  | some dflt =>
    match (resolveRole roles dflt st.pref).2 with
    | none => (⟨h1, st.pref⟩, Outbound.unexpected)
    | some _ =>
      match try_ollama_request infer with
      | (true, some c) =>
        if c ≠ "" then
          (⟨trimTo (maxCtx * 2)
              (h1 ++ [Turn.mk Role.user prompt, Turn.mk Role.assistant c]),
            st.pref⟩,
           Outbound.delivered (truncateTwoSentences c))
        else (⟨h1, st.pref⟩, Outbound.emptyResponse)
      | (true, none) => (⟨h1, st.pref⟩, Outbound.emptyResponse)
      | (false, _) => (⟨h1, st.pref⟩, Outbound.failureGeneric)

/-! ## Trim lemmas -/

theorem trimTo_eq_drop {k : Nat} (hk : 1 ≤ k) (l : List Turn) :
    trimTo k l = l.drop (l.length - k) := by
  unfold trimTo
  split
  · split
    · omega
    · rfl
  · have h0 : l.length - k = 0 := by omega
    rw [h0, List.drop_zero]

theorem trimTo_length {k : Nat} (hk : 1 ≤ k) (l : List Turn) :
    (trimTo k l).length ≤ k := by
  rw [trimTo_eq_drop hk, List.length_drop]
  omega

theorem trimTo_of_le {k : Nat} (l : List Turn) (h : l.length ≤ k) :
    trimTo k l = l := by
  unfold trimTo
  rw [if_neg (by omega)]

theorem trimTo_append_trimTo {k : Nat} (hk : 1 ≤ k) (a b : List Turn) :
    trimTo k (trimTo k a ++ b) = trimTo k (a ++ b) := by
  rcases le_or_lt a.length k with h | h
  · rw [trimTo_of_le a h]
  · have hxlen : (a.drop (a.length - k)).length = k := by
      rw [List.length_drop]; omega
    rw [trimTo_eq_drop hk a, trimTo_eq_drop hk, trimTo_eq_drop hk]
    rcases le_or_lt k b.length with hb | hb
    · have e1 : (a.drop (a.length - k) ++ b).length - k
          = (a.drop (a.length - k)).length + (b.length - k) := by
        rw [List.length_append, hxlen]; omega
      have e2 : (a ++ b).length - k = a.length + (b.length - k) := by
        rw [List.length_append]; omega
      rw [e1, List.drop_append, e2, List.drop_append]
    · have e1 : (a.drop (a.length - k) ++ b).length - k = b.length := by
        rw [List.length_append, hxlen]; omega
      have hble : b.length ≤ (a.drop (a.length - k)).length := by omega
      rw [e1, List.drop_append_of_le_length hble, List.drop_drop]
      have e2 : (a ++ b).length - k = a.length + b.length - k := by
        rw [List.length_append]
      have hle2 : a.length + b.length - k ≤ a.length := by omega
      rw [e2, List.drop_append_of_le_length hle2]
      have e3 : a.length - k + b.length = a.length + b.length - k := by omega
      rw [e3]

theorem foldl_appendTurn {k : Nat} (hk : 1 ≤ k) :
    ∀ (ts : List Turn) (h0 : List Turn), ts ≠ [] →
      List.foldl (appendTurn k) h0 ts = trimTo k (h0 ++ ts)
  | [], _, hne => absurd rfl hne
  | [t], h0, _ => rfl
  | t :: t2 :: ts, h0, _ => by
    have ih := foldl_appendTurn hk (t2 :: ts) (appendTurn k h0 t) (by simp)
    rw [List.foldl_cons, ih, appendTurn, trimTo_append_trimTo hk]
    simp

theorem trimTo_append_last (k : Nat) (l : List Turn) (t : Turn) :
    ∃ pre, trimTo k (l ++ [t]) = pre ++ [t] := by
  unfold trimTo
  split
  · split
    · exact ⟨l, rfl⟩
    · refine ⟨l.drop ((l ++ [t]).length - k), ?_⟩
      have hle : (l ++ [t]).length - k ≤ l.length := by
        rw [List.length_append, List.length_singleton]; omega
      rw [List.drop_append_of_le_length hle]
  · exact ⟨l, rfl⟩

theorem mem_updatedHistory (maxCtx : Nat)
    (history : List Turn) (prompt : String) :
    Turn.mk Role.user prompt ∈ updatedHistory maxCtx history prompt := by
  unfold updatedHistory
  obtain ⟨pre, hpre⟩ :=
    trimTo_append_last maxCtx history (Turn.mk Role.user prompt)
  rw [hpre]
  simp

/-! ## Shape lemmas for the inference-client result -/

theorem try_shape (infer : InferResult) :
    try_ollama_request infer = (false, none) ∨
    ∃ c, try_ollama_request infer = (true, some c) ∧ c ≠ "" := by
  cases infer with
  | httpError => exact Or.inl rfl
  | timeout => exact Or.inl rfl
  | connectionError => exact Or.inl rfl
  | streamLines ls =>
    simp only [try_ollama_request]
    split
    · exact Or.inl rfl
    · split
      · exact Or.inl rfl
      · rename_i hne
        exact Or.inr ⟨_, rfl, hne⟩

theorem try_success_ne (infer : InferResult) (c : String)
    (h : try_ollama_request infer = (true, some c)) : c ≠ "" := by
  rcases try_shape infer with h0 | ⟨c2, h0, hne⟩
  · rw [h0] at h
    exact absurd h (by simp)
  · rw [h0] at h
    have hc : c2 = c := by
      have := congrArg Prod.snd h
      simpa using this
    rw [← hc]
    exact hne

/-! ## Reduction lemmas for the orchestrator -/

theorem handleMessage_noRoles (maxCtx : Nat) (roles : List (String × String))
    (st : HandleState) (prompt : String) (infer : InferResult) :
    handleMessage maxCtx roles none st prompt infer
      = (⟨updatedHistory maxCtx st.history prompt, st.pref⟩,
          Outbound.criticalNoRoles) := rfl

theorem handleMessage_unexpected (maxCtx : Nat) (roles : List (String × String))
    (dflt : String) (st : HandleState) (prompt : String) (infer : InferResult)
    (hres : (resolveRole roles dflt st.pref).2 = none) :
    handleMessage maxCtx roles (some dflt) st prompt infer
      = (⟨updatedHistory maxCtx st.history prompt, st.pref⟩,
          Outbound.unexpected) := by
  simp only [handleMessage]
  rw [hres]

theorem handleMessage_fail (maxCtx : Nat) (roles : List (String × String))
    (dflt : String) (st : HandleState) (prompt : String) (infer : InferResult)
    (sys : String)
    (hres : (resolveRole roles dflt st.pref).2 = some sys)
    (htry : try_ollama_request infer = (false, none)) :
    handleMessage maxCtx roles (some dflt) st prompt infer
      = (⟨updatedHistory maxCtx st.history prompt, st.pref⟩,
          Outbound.failureGeneric) := by
  simp only [handleMessage]
  rw [hres, htry]

theorem handleMessage_success (maxCtx : Nat) (roles : List (String × String))
    (dflt : String) (st : HandleState) (prompt : String) (infer : InferResult)
    (c sys : String)
    (hres : (resolveRole roles dflt st.pref).2 = some sys)
    (htry : try_ollama_request infer = (true, some c)) :
    handleMessage maxCtx roles (some dflt) st prompt infer
      = (⟨trimTo (maxCtx * 2)
            (updatedHistory maxCtx st.history prompt
              ++ [Turn.mk Role.user prompt, Turn.mk Role.assistant c]),
          st.pref⟩,
        Outbound.delivered (truncateTwoSentences c)) := by
  have hc : c ≠ "" := try_success_ne infer c htry
  simp only [handleMessage]
  rw [hres, htry]
  simp [hc]

theorem handleMessage_pref (maxCtx : Nat) (roles : List (String × String))
    (d0 : Option String) (st : HandleState) (prompt : String)
    (infer : InferResult) :
    (handleMessage maxCtx roles d0 st prompt infer).1.pref = st.pref := by
  cases d0 with
  | none => rfl
  | some dflt =>
    cases hres : (resolveRole roles dflt st.pref).2 with
    | none =>
      rw [handleMessage_unexpected maxCtx roles dflt st prompt infer hres]
    | some sys =>
      rcases try_shape infer with h | ⟨c, h, _⟩
      · rw [handleMessage_fail maxCtx roles dflt st prompt infer sys hres h]
      · rw [handleMessage_success maxCtx roles dflt st prompt infer c sys hres h]

/-! ## Claim C4 -/

/-- Claim C4 (confirmed, parametric in the trim bound `k`): the inline
append-then-trim operation of lines 352-354 (`k = MAX_CONTEXT_LENGTH`) and
lines 423-425 (`k = MAX_CONTEXT_LENGTH * 2`) never leaves more than `k`
turns, and appending `N ≥ k` turns leaves exactly the most recent `k`
appended turns, oldest dropped first with order preserved. -/
theorem c4_trim_invariant (k : Nat) (hk : 1 ≤ k) :
    (∀ m : List Turn, (trimTo k m).length ≤ k) ∧
    ∀ (h0 ts : List Turn), k ≤ ts.length →
      List.foldl (appendTurn k) h0 ts = ts.drop (ts.length - k) := by
  refine ⟨fun m => trimTo_length hk m, fun h0 ts hts => ?_⟩
  have hne : ts ≠ [] := by
    intro h
    subst h
    simp at hts
    omega
  rw [foldl_appendTurn hk ts h0 hne, trimTo_eq_drop hk]
  have e : (h0 ++ ts).length - k = h0.length + (ts.length - k) := by
    rw [List.length_append]; omega
  rw [e, List.drop_append]

theorem c4_witness :
    (trimTo 2 [Turn.mk Role.user "a", Turn.mk Role.user "b",
        Turn.mk Role.user "c"]).length ≤ 2 ∧
    List.foldl (appendTurn 2) []
        [Turn.mk Role.user "a", Turn.mk Role.user "b", Turn.mk Role.user "c"]
      = [Turn.mk Role.user "b", Turn.mk Role.user "c"] := by
  have h := c4_trim_invariant 2 (by decide)
  refine ⟨h.1 _, ?_⟩
  have h2 := h.2 []
    [Turn.mk Role.user "a", Turn.mk Role.user "b", Turn.mk Role.user "c"]
    (by decide)
  simpa using h2

/-! ## Claim C8 -/

/-- Claim C8 (confirmed): a fresh user (xp 0, level 1, no badges) granted
1000 xp in one `add_xp` call ends at exactly level 5, and the returned
newly-unlocked badge list is the level-2 badge followed by the level-5
badge, in that order; no badge milestone exists for level 4. -/
theorem c8_add_xp_1000 :
    add_xp ⟨0, 1, []⟩ 1000
      = (true,
          ⟨1000, 5, ["Congrats, You Did Something", "Tryhard in Training"]⟩,
          ["Congrats, You Did Something", "Tryhard in Training"]) ∧
    (add_xp ⟨0, 1, []⟩ 1000).2.2 = [(badge_milestones 2).getD "",
      (badge_milestones 5).getD ""] ∧
    badge_milestones 4 = none := by
  decide

/-! ## Claim C1 -/

/-- Claim C1 is false on the code: on an inference failure (here a timeout)
the just-sent user turn, appended at lines 349-351 before the call, stays
in the conversation history. -/
theorem c1_counterexample :
    (handleMessage 10 [("a", "pa")] (some "a") ⟨[], none⟩ "hi"
        InferResult.timeout).1.history ≠ ([] : List Turn) ∧
    Turn.mk Role.user "hi" ∈
      (handleMessage 10 [("a", "pa")] (some "a") ⟨[], none⟩ "hi"
        InferResult.timeout).1.history := by
  decide

/-- Claim C1 (corrected): for every inbound message whose inference call
fails, the history is nevertheless mutated before the call — it becomes the
old history plus the just-sent user turn (trimmed to the window), and in
particular the just-sent user turn IS present in history afterwards. -/
theorem c1_amended (maxCtx : Nat) (roles : List (String × String))
    (d0 : Option String) (st : HandleState) (prompt : String)
    (infer : InferResult)
    (hfail : try_ollama_request infer = (false, none)) :
    (handleMessage maxCtx roles d0 st prompt infer).1.history
        = updatedHistory maxCtx st.history prompt ∧
    Turn.mk Role.user prompt ∈
      (handleMessage maxCtx roles d0 st prompt infer).1.history := by
  have hh : (handleMessage maxCtx roles d0 st prompt infer).1.history
      = updatedHistory maxCtx st.history prompt := by
    cases d0 with
    | none => rfl
    | some dflt =>
      cases hres : (resolveRole roles dflt st.pref).2 with
      | none =>
        rw [handleMessage_unexpected maxCtx roles dflt st prompt infer hres]
      | some sys =>
        rw [handleMessage_fail maxCtx roles dflt st prompt infer sys hres hfail]
  refine ⟨hh, ?_⟩
  rw [hh]
  exact mem_updatedHistory maxCtx st.history prompt

theorem c1_amended_witness :
    (handleMessage 10 [("a", "pa")] (some "a") ⟨[], none⟩ "hi"
        InferResult.timeout).1.history = updatedHistory 10 [] "hi" ∧
    Turn.mk Role.user "hi" ∈
      (handleMessage 10 [("a", "pa")] (some "a") ⟨[], none⟩ "hi"
        InferResult.timeout).1.history := by
  exact c1_amended 10 [("a", "pa")] (some "a") ⟨[], none⟩ "hi"
    InferResult.timeout (by decide)

/-! ## Claim C2 -/

/-- Claim C2 is false on the code: a successful exchange starting from an
empty history leaves three turns, not two — the user turn is appended both
before the call (line 351) and again after it (line 419), then the
assistant turn (line 420). -/
theorem c2_counterexample :
    (handleMessage 10 [("a", "pa")] (some "a") ⟨[], none⟩ "hi"
        (InferResult.streamLines
          [StreamLine.record ⟨some "Hello there", none, true⟩])).1.history
      = [Turn.mk Role.user "hi", Turn.mk Role.user "hi",
          Turn.mk Role.assistant "Hello there"] ∧
    (handleMessage 10 [("a", "pa")] (some "a") ⟨[], none⟩ "hi"
        (InferResult.streamLines
          [StreamLine.record ⟨some "Hello there", none, true⟩])).1.history.length
      ≠ ([] : List Turn).length + 2 := by
  decide

/-- Claim C2 (corrected): on a successfully handled message exactly THREE
turns are appended — the user turn (pre-call), the same user turn again,
then the assistant turn, in that order — so the history grows by exactly 3
whenever no trim triggers. -/
theorem c2_amended (maxCtx : Nat) (roles : List (String × String))
    (dflt : String) (st : HandleState) (prompt : String) (infer : InferResult)
    (c sys : String)
    (hmax : 2 ≤ maxCtx) (hlen : st.history.length < maxCtx)
    (hres : (resolveRole roles dflt st.pref).2 = some sys)
    (htry : try_ollama_request infer = (true, some c)) :
    (handleMessage maxCtx roles (some dflt) st prompt infer).1.history
        = st.history ++ [Turn.mk Role.user prompt, Turn.mk Role.user prompt,
            Turn.mk Role.assistant c] ∧
    (handleMessage maxCtx roles (some dflt) st prompt infer).1.history.length
        = st.history.length + 3 := by
  rw [handleMessage_success maxCtx roles dflt st prompt infer c sys hres htry]
  have h1 : updatedHistory maxCtx st.history prompt
      = st.history ++ [Turn.mk Role.user prompt] := by
    unfold updatedHistory
    refine trimTo_of_le _ ?_
    rw [List.length_append, List.length_singleton]
    omega
  have h2 : trimTo (maxCtx * 2)
      ((st.history ++ [Turn.mk Role.user prompt])
        ++ [Turn.mk Role.user prompt, Turn.mk Role.assistant c])
      = (st.history ++ [Turn.mk Role.user prompt])
        ++ [Turn.mk Role.user prompt, Turn.mk Role.assistant c] := by
    refine trimTo_of_le _ ?_
    simp only [List.length_append, List.length_singleton]
    simp
    omega
  simp only [h1, h2]
  constructor
  · simp
  · simp only [List.length_append, List.length_singleton]
    simp

theorem c2_amended_witness :
    (handleMessage 10 [("a", "pa")] (some "a") ⟨[], none⟩ "hi"
        (InferResult.streamLines
          [StreamLine.record ⟨some "Hello there", none, true⟩])).1.history
      = [] ++ [Turn.mk Role.user "hi", Turn.mk Role.user "hi",
          Turn.mk Role.assistant "Hello there"] ∧
    (handleMessage 10 [("a", "pa")] (some "a") ⟨[], none⟩ "hi"
        (InferResult.streamLines
          [StreamLine.record ⟨some "Hello there", none, true⟩])).1.history.length
      = ([] : List Turn).length + 3 := by
  have h := c2_amended 10 [("a", "pa")] "a" ⟨[], none⟩ "hi"
    (InferResult.streamLines
      [StreamLine.record ⟨some "Hello there", none, true⟩])
    "Hello there" "pa" (by decide) (by decide) (by decide) (by decide)
  simpa using h

/-! ## Claim C3 -/

/-- Claim C3 is false on the code: the payload built at lines 391-401
contains the latest user text twice — once appended explicitly at line 398
and once as the last element of the history updated at line 351 — never
exactly once. -/
theorem c3_counterexample :
    (messagesPayload 10 "pa" [] "hi").count (Turn.mk Role.user "hi") = 2 ∧
    (messagesPayload 10 "pa" [] "hi").count (Turn.mk Role.user "hi") ≠ 1 := by
  decide

/-- Claim C3 (corrected): the request consists of exactly one system-role
entry, then the latest user text, then the just-updated history — which
itself ends with the latest user text — so when the prior history does not
already contain that turn, the latest user text occurs exactly TWICE in the
message sequence (not once). -/
theorem c3_amended (maxCtx : Nat) (sys : String) (history : List Turn)
    (prompt : String) (hk : 1 ≤ maxCtx)
    (hsys : ∀ t ∈ history, t.role ≠ Role.system)
    (hnodup : Turn.mk Role.user prompt ∉ history) :
    (messagesPayload maxCtx sys history prompt).countP
        (fun t => t.role == Role.system) = 1 ∧
    (messagesPayload maxCtx sys history prompt).count
        (Turn.mk Role.user prompt) = 2 := by
  unfold messagesPayload updatedHistory
  rw [trimTo_eq_drop hk]
  have hle : (history ++ [Turn.mk Role.user prompt]).length - maxCtx
      ≤ history.length := by
    rw [List.length_append, List.length_singleton]
    omega
  rw [List.drop_append_of_le_length hle]
  have hsub := List.drop_subset
    ((history ++ [Turn.mk Role.user prompt]).length - maxCtx) history
  constructor
  · rw [List.countP_cons, List.countP_cons, List.countP_append]
    have hz : (history.drop
        ((history ++ [Turn.mk Role.user prompt]).length - maxCtx)).countP
        (fun t => t.role == Role.system) = 0 := by
      rw [List.countP_eq_zero]
      intro t ht
      simpa using hsys t (hsub ht)
    rw [hz]
    simp
  · rw [List.count_cons, List.count_cons, List.count_append]
    have hz : (history.drop
        ((history ++ [Turn.mk Role.user prompt]).length - maxCtx)).count
        (Turn.mk Role.user prompt) = 0 := by
      rw [List.count_eq_zero]
      intro hmem
      exact hnodup (hsub hmem)
    rw [hz]
    simp [Turn.mk.injEq]

theorem c3_amended_witness :
    (messagesPayload 10 "pa" [] "hi").countP
        (fun t => t.role == Role.system) = 1 ∧
    (messagesPayload 10 "pa" [] "hi").count (Turn.mk Role.user "hi") = 2 :=
  c3_amended 10 "pa" [] "hi" (by decide) (by simp) (by simp)

/-! ## Claim C5 -/

/-- Claim C5 is false on the code: a zero-token stream is NOT classified
distinctly — `try_ollama_request` returns the same `(False, None)` it
returns for a timeout (lines 548-550 vs 563-565), so the orchestrator emits
the generic failure message of line 450, not the dedicated empty-response
message of line 454. -/
theorem c5_counterexample :
    (handleMessage 10 [("a", "pa")] (some "a") ⟨[], none⟩ "hi"
        (InferResult.streamLines [StreamLine.record ⟨none, none, true⟩])).2
      = Outbound.failureGeneric ∧
    (handleMessage 10 [("a", "pa")] (some "a") ⟨[], none⟩ "hi"
        (InferResult.streamLines [StreamLine.record ⟨none, none, true⟩])).2
      ≠ Outbound.emptyResponse ∧
    (handleMessage 10 [("a", "pa")] (some "a") ⟨[], none⟩ "hi"
        (InferResult.streamLines [StreamLine.record ⟨none, none, true⟩])).2
      = (handleMessage 10 [("a", "pa")] (some "a") ⟨[], none⟩ "hi"
          InferResult.timeout).2 := by
  decide

/-- Claim C5 (corrected): a zero-token stream and a stream whose aggregated
reply cleans to empty both collapse into the same generic failure result
`(false, none)` as timeouts, connection failures and backend rejections;
consequently the orchestrator emits the generic failure message for them,
and its dedicated empty-response branch (line 454) is unreachable. -/
theorem c5_amended :
    (∀ (maxCtx : Nat) (roles : List (String × String)) (d0 : Option String)
        (st : HandleState) (prompt : String) (infer : InferResult),
      (handleMessage maxCtx roles d0 st prompt infer).2
        ≠ Outbound.emptyResponse) ∧
    try_ollama_request
        (InferResult.streamLines [StreamLine.record ⟨none, none, true⟩])
      = (false, none) ∧
    try_ollama_request
        (InferResult.streamLines [StreamLine.record ⟨some "  ", none, true⟩])
      = (false, none) ∧
    try_ollama_request InferResult.timeout = (false, none) ∧
    try_ollama_request InferResult.connectionError = (false, none) ∧
    try_ollama_request InferResult.httpError = (false, none) := by
  refine ⟨?_, by decide, by decide, rfl, rfl, rfl⟩
  intro maxCtx roles d0 st prompt infer
  cases d0 with
  | none =>
    rw [handleMessage_noRoles maxCtx roles st prompt infer]
    simp
  | some dflt =>
    cases hres : (resolveRole roles dflt st.pref).2 with
    | none =>
      rw [handleMessage_unexpected maxCtx roles dflt st prompt infer hres]
      simp
    | some sys =>
      rcases try_shape infer with h | ⟨c, h, _⟩
      · rw [handleMessage_fail maxCtx roles dflt st prompt infer sys hres h]
        simp
      · rw [handleMessage_success maxCtx roles dflt st prompt infer c sys hres h]
        simp

/-! ## Claim C9 -/

/-- Claim C9 is false on the code: when the stored persona id is not in the
role table, lines 374-377 fall back to the default for the current request
only — `user_preferences` is never written, so a subsequent lookup still
yields the stale invalid id, not the default. -/
theorem c9_counterexample :
    lookupRole [("a", "pa")] "ghost" = none ∧
    (handleMessage 10 [("a", "pa")] (some "a") ⟨[], some "ghost"⟩ "hi"
        InferResult.timeout).1.pref = some "ghost" ∧
    some "ghost" ≠ some "a" := by
  decide

/-- Claim C9 (corrected): on a persona-table miss the handler resolves the
request against the default persona (`resolveRole` returns the default name
and the default's table entry), but the user's stored persona id is NOT
corrected — message handling leaves the stored preference unchanged on
every path. -/
theorem c9_amended (maxCtx : Nat) (roles : List (String × String))
    (d0 : Option String) (dflt : String) (st : HandleState) (prompt : String)
    (infer : InferResult)
    (hmiss : lookupRole roles (st.pref.getD dflt) = none) :
    (handleMessage maxCtx roles d0 st prompt infer).1.pref = st.pref ∧
    resolveRole roles dflt st.pref = (dflt, lookupRole roles dflt) := by
  refine ⟨handleMessage_pref maxCtx roles d0 st prompt infer, ?_⟩
  unfold resolveRole
  rw [hmiss]

theorem c9_amended_witness :
    (handleMessage 10 [("a", "pa")] (some "a") ⟨[], some "ghost"⟩ "hi"
        InferResult.timeout).1.pref = some "ghost" ∧
    resolveRole [("a", "pa")] "a" (some "ghost")
      = ("a", lookupRole [("a", "pa")] "a") :=
  c9_amended 10 [("a", "pa")] (some "a") "a" ⟨[], some "ghost"⟩ "hi"
    InferResult.timeout (by decide)

/-! ## Claim C6 -/

theorem aggregate_until_done (r : JsonRecord) (hr : r.done = true)
    (post : List StreamLine) :
    ∀ (pre : List StreamLine) (full : String) (received : Bool),
      (∀ l ∈ pre, lineDone l = false) →
      (aggregate (pre ++ StreamLine.record r :: post) full received).1
        = full ++ (tokensOf pre ++ recordToken r)
  | [], full, received, _ => by
    simp only [List.nil_append, aggregate, tokensOf, hr, if_true]
    by_cases htok : recordToken r ≠ ""
    · simp [htok]
    · simp only [ne_eq, not_not] at htok
      simp [htok]
  | l :: pre, full, received, hpre => by
    have hl := hpre l (by simp)
    have hpre2 : ∀ x ∈ pre, lineDone x = false := fun x hx =>
      hpre x (by simp [hx])
    cases l with
    | empty =>
      simpa [aggregate, tokensOf] using
        aggregate_until_done r hr post pre full received hpre2
    | blank =>
      simpa [aggregate, tokensOf] using
        aggregate_until_done r hr post pre full received hpre2
    | malformed =>
      simpa [aggregate, tokensOf] using
        aggregate_until_done r hr post pre full received hpre2
    | record r2 =>
      have hr2 : r2.done = false := by simpa [lineDone] using hl
      have ih := aggregate_until_done r hr post pre
        (if recordToken r2 ≠ "" then full ++ recordToken r2 else full)
        (if recordToken r2 ≠ "" then true else received) hpre2
      simp only [List.cons_append, aggregate, hr2, List.append_eq] at ih ⊢
      rw [if_neg (by simp), ih]
      by_cases htok : recordToken r2 ≠ ""
      · simp [htok, tokensOf, String.append_assoc]
      · simp only [ne_eq, not_not] at htok
        simp [htok, tokensOf]

/-- Claim C6 (confirmed): in the stream-aggregation loop, blank lines,
keep-alive markers and malformed records contribute nothing and do not
abort; recognized tokens are concatenated in arrival order; and a record
with `done = true` stops consumption, so lines after it contribute nothing
to the aggregated text. -/
theorem c6_stream_aggregation (pre : List StreamLine) (r : JsonRecord)
    (post : List StreamLine)
    (hpre : ∀ l ∈ pre, lineDone l = false) (hr : r.done = true) :
    (aggregate (pre ++ StreamLine.record r :: post) "" false).1
      = tokensOf pre ++ recordToken r := by
  rw [aggregate_until_done r hr post pre "" false hpre]
  exact String.empty_append _

theorem c6_witness :
    (aggregate ([StreamLine.blank, StreamLine.malformed,
          StreamLine.record ⟨none, some (some "Hel"), false⟩,
          StreamLine.record ⟨none, some (some "lo"), false⟩]
        ++ StreamLine.record ⟨none, none, true⟩
          :: [StreamLine.record ⟨none, some (some "IGNORED"), false⟩])
        "" false).1
      = "Hello" := by
  have h := c6_stream_aggregation
    [StreamLine.blank, StreamLine.malformed,
      StreamLine.record ⟨none, some (some "Hel"), false⟩,
      StreamLine.record ⟨none, some (some "lo"), false⟩]
    ⟨none, none, true⟩
    [StreamLine.record ⟨none, some (some "IGNORED"), false⟩]
    (by decide) rfl
  rw [h]
  decide

/-! ## Claim C7 -/

theorem findDotFrom_eq_none (l : List Char) :
    ∀ i : Nat, findDotFrom l i = none ↔ '.' ∉ l := by
  induction l with
  | nil => intro i; simp [findDotFrom]
  | cons c rest ih =>
    intro i
    by_cases hc : c = '.'
    · subst hc
      simp [findDotFrom]
    · simp only [findDotFrom, List.mem_cons]
      rw [if_neg (by simpa using hc)]
      rw [ih (i + 1)]
      constructor
      · intro h hmem
        rcases hmem with h1 | h1
        · exact hc h1.symm
        · exact h h1
      · intro h hmem
        exact h (Or.inr hmem)

theorem findDotFrom_split (l : List Char) :
    ∀ i j : Nat, findDotFrom l i = some j →
      ∃ a b, l = a ++ '.' :: b ∧ '.' ∉ a ∧ j = i + a.length := by
  induction l with
  | nil => intro i j h; simp [findDotFrom] at h
  | cons c rest ih =>
    intro i j h
    by_cases hc : c = '.'
    · subst hc
      simp [findDotFrom] at h
      refine ⟨[], rest, by simp, by simp, ?_⟩
      simpa using h.symm
    · simp only [findDotFrom] at h
      rw [if_neg (by simpa using hc)] at h
      obtain ⟨a, b, hl, hna, hj⟩ := ih (i + 1) j h
      refine ⟨c :: a, b, by simp [hl], ?_, ?_⟩
      · simp only [List.mem_cons]
        intro hx
        rcases hx with h1 | h1
        · exact hc h1.symm
        · exact hna h1
      · simp only [List.length_cons]
        omega

/-- Claim C7 (confirmed): the post-processing pipeline trims whitespace,
strips leading `User:` / `Assistant:` labels at line starts, and truncates
through the second period when two or more periods exist, else leaves the
text unmodified — with the three specified example behaviours. -/
theorem c7_postprocessor :
    cleanAll "Hello. World. Extra stuff." = "Hello. World." ∧
    cleanAll "No periods here" = "No periods here" ∧
    cleanAll "User: hi there." = "hi there." ∧
    ∀ s : String, s.toList.count '.' ≤ 1 → truncateTwoSentences s = s := by
  refine ⟨by decide, by decide, by decide, ?_⟩
  intro s hcount
  unfold truncateTwoSentences
  cases h1 : findDotFrom s.toList 0 with
  | none => rfl
  | some i1 =>
    obtain ⟨a, b, hl, hna, hi⟩ := findDotFrom_split s.toList 0 i1 h1
    have hcb : '.' ∉ b := by
      rw [hl, List.count_append, List.count_cons] at hcount
      have ha0 : a.count '.' = 0 := List.count_eq_zero.2 hna
      rw [ha0] at hcount
      simp at hcount
      exact List.count_eq_zero.1 (by omega)
    have hdrop : s.toList.drop (i1 + 1) = b := by
      rw [hl, hi]
      have : (0 : Nat) + a.length + 1 = a.length + 1 := by omega
      rw [this]
      rw [@List.drop_append _ a ('.' :: b) 1]
      simp
    have h2 : findDotFrom (s.toList.drop (i1 + 1)) (i1 + 1) = none := by
      rw [hdrop]
      exact (findDotFrom_eq_none b (i1 + 1)).2 hcb
    show (match findDotFrom (s.toList.drop (i1 + 1)) (i1 + 1) with
      | none => s
      | some i2 => String.mk (s.toList.take (i2 + 1))) = s
    rw [h2]

theorem c7_witness : truncateTwoSentences "No dots" = "No dots" :=
  c7_postprocessor.2.2.2 "No dots" (by decide)

/-! ## Claim C10 -/

/-- Claim C10 (confirmed): on a successful exchange the assistant turn
stored in history carries the full cleaned reply `c` (the pre-truncation
text of line 420), while the delivered text is `truncateTwoSentences c`
(lines 427-433 run after the history commit); whenever a second period
exists with further text after it, the delivered text is a strict prefix
of the stored assistant content. -/
theorem c10_stored_vs_delivered (maxCtx : Nat)
    (roles : List (String × String)) (dflt : String) (st : HandleState)
    (prompt : String) (infer : InferResult) (c sys : String)
    (hres : (resolveRole roles dflt st.pref).2 = some sys)
    (htry : try_ollama_request infer = (true, some c)) :
    (∃ pre, (handleMessage maxCtx roles (some dflt) st prompt infer).1.history
        = pre ++ [Turn.mk Role.assistant c]) ∧
    (handleMessage maxCtx roles (some dflt) st prompt infer).2
        = Outbound.delivered (truncateTwoSentences c) ∧
    ∀ i1 i2 : Nat, findDotFrom c.toList 0 = some i1 →
      findDotFrom (c.toList.drop (i1 + 1)) (i1 + 1) = some i2 →
      i2 + 1 < c.toList.length →
      (truncateTwoSentences c).toList = c.toList.take (i2 + 1) ∧
        truncateTwoSentences c ≠ c := by
  rw [handleMessage_success maxCtx roles dflt st prompt infer c sys hres htry]
  refine ⟨?_, rfl, ?_⟩
  · have h := trimTo_append_last (maxCtx * 2)
      (updatedHistory maxCtx st.history prompt ++ [Turn.mk Role.user prompt])
      (Turn.mk Role.assistant c)
    simpa [List.append_assoc] using h
  · intro i1 i2 h1 h2 hlt
    have ht : truncateTwoSentences c = String.mk (c.toList.take (i2 + 1)) := by
      unfold truncateTwoSentences
      rw [h1]
      show (match findDotFrom (c.toList.drop (i1 + 1)) (i1 + 1) with
        | none => c
        | some i2 => String.mk (c.toList.take (i2 + 1)))
        = String.mk (c.toList.take (i2 + 1))
      rw [h2]
    rw [ht]
    constructor
    · rfl
    · intro he
      have hlist : c.toList.take (i2 + 1) = c.toList := congrArg String.toList he
      have hlen := congrArg List.length hlist
      rw [List.length_take, Nat.min_eq_left (Nat.le_of_lt hlt)] at hlen
      omega

theorem c10_witness :
    (handleMessage 10 [("a", "pa")] (some "a") ⟨[], none⟩ "hi"
        (InferResult.streamLines
          [StreamLine.record ⟨some "A. B. C", none, true⟩])).2
      = Outbound.delivered (truncateTwoSentences "A. B. C") ∧
    (truncateTwoSentences "A. B. C").toList = "A. B. C".toList.take 5 ∧
    truncateTwoSentences "A. B. C" ≠ "A. B. C" := by
  have h := c10_stored_vs_delivered 10 [("a", "pa")] "a" ⟨[], none⟩ "hi"
    (InferResult.streamLines [StreamLine.record ⟨some "A. B. C", none, true⟩])
    "A. B. C" "pa" (by decide) (by decide)
  have h3 := h.2.2 1 4 (by decide) (by decide) (by decide)
  exact ⟨h.2.1, h3.1, h3.2⟩
